import Mathlib

/-!
Shallow embedding of the LSP transport and JSON-RPC layer of the `rls`
repository (`src/server/transport.rs`, `src/server/rpc.rs`).

Conventions:
* a raw byte stream is a `List Nat` of byte values (0..255);
* decoded text (Rust `String` / `&str`) is a `List Nat` of Unicode scalar
  values, obtained by UTF-8 decoding;
* a Rust panic is modelled as the `Option.none` outcome of a function;
* `std::io::Error` is modelled by its kind together with the message the
  source builds (`IoError`).
-/

deriving instance DecidableEq for Except

namespace Rls

/-- Unicode scalar values of a Lean string literal; used to write packets
and header lines in theorems. -/
def strCps (s : String) : List Nat := s.data.map Char.toNat

/-- A Lean string from a list of Unicode scalar values (used when the
source embeds a line into an error message with `format!`). -/
def cpsStr (l : List Nat) : String := String.mk (l.map Char.ofNat)

/-- The single-quote character, used by `format!("... '{}'", line)` in the
source when building the malformed-header message. -/
def quoteCh : String := (Char.ofNat 39).toString

/-- `std::io::Error` as produced by the transport code: the kind plus the
message built by the source (`UnexpectedEof` is raised with an empty or
stock message; only the kind is ever inspected). -/
inductive IoError where
  | invalidData (msg : String)
  | unexpectedEof
deriving DecidableEq

/-- Whether a byte is a UTF-8 continuation byte (`10xxxxxx`). -/
def isCont (b : Nat) : Bool := 0x80 ≤ b && b < 0xC0

/-- Strict UTF-8 decoding of a byte list into Unicode scalar values,
exactly the validation performed by Rust `str::from_utf8` /
`String::from_utf8`: overlong encodings, surrogate code points, values
above U+10FFFF and truncated sequences are rejected. -/
def utf8Decode : List Nat → Option (List Nat)
  | [] => some []
  | b :: rest =>
    if b < 0x80 then (utf8Decode rest).map (fun t => b :: t)
    else if b < 0xC2 then none
    else if b < 0xE0 then
      match rest with
      | b1 :: r =>
        if isCont b1 then
          (utf8Decode r).map (fun t => ((b - 0xC0) * 0x40 + (b1 - 0x80)) :: t)
        else none
      | [] => none
    else if b < 0xF0 then
      match rest with
      | b1 :: b2 :: r =>
        if isCont b1 && isCont b2 then
          let cp := (b - 0xE0) * 0x1000 + (b1 - 0x80) * 0x40 + (b2 - 0x80)
          if cp < 0x800 || (0xD800 ≤ cp && cp < 0xE000) then none
          else (utf8Decode r).map (fun t => cp :: t)
        else none
      | _ => none
    else if b < 0xF5 then
      match rest with
      | b1 :: b2 :: b3 :: r =>
        if isCont b1 && isCont b2 && isCont b3 then
          let cp := (b - 0xF0) * 0x40000 + (b1 - 0x80) * 0x1000 +
            (b2 - 0x80) * 0x40 + (b3 - 0x80)
          if cp < 0x10000 || 0x110000 ≤ cp then none
          else (utf8Decode r).map (fun t => cp :: t)
        else none
      | _ => none
    else none

/-- The Unicode `White_Space` code points stripped by Rust `str::trim`. -/
def isRustWhitespace (c : Nat) : Bool :=
  c = 0x09 || c = 0x0A || c = 0x0B || c = 0x0C || c = 0x0D || c = 0x20 ||
  c = 0x85 || c = 0xA0 || c = 0x1680 ||
  (0x2000 ≤ c && c ≤ 0x200A) ||
  c = 0x2028 || c = 0x2029 || c = 0x202F || c = 0x205F || c = 0x3000

/-- Rust `str::trim` over scalar values. -/
def trimCps (l : List Nat) : List Nat :=
  ((l.dropWhile isRustWhitespace).reverse.dropWhile isRustWhitespace).reverse

/-- ASCII lowercasing of one scalar value.  The source uses the full
Unicode `str::to_lowercase` only to compare the key against the pure
ASCII word `content-length`; no Unicode scalar outside `A`..`Z` has a
lowercase expansion that is a character of that word, so the ASCII map
decides the comparison identically. -/
def toLowerCp (c : Nat) : Nat :=
  if 0x41 ≤ c && c ≤ 0x5A then c + 0x20 else c

/-- `str::to_lowercase` restricted as explained at `toLowerCp`. -/
def toLowerCps (l : List Nat) : List Nat := l.map toLowerCp

/-- Scalar values of `"content-length"`. -/
def contentLengthCps : List Nat := strCps "content-length"

/-- `line.splitn(2, ": ")`: split at the first occurrence of the
two-character separator `": "`.  `none` when the separator is absent. -/
def splitOnSep : List Nat → Option (List Nat × List Nat)
  | [] => none
  | 0x3A :: 0x20 :: rest => some ([], rest)
  | c :: rest => (splitOnSep rest).map (fun p => (c :: p.1, p.2))

/-- `LspHeader`: one parsed framing header line (`transport.rs`). -/
structure LspHeader where
  key : List Nat
  value : List Nat
deriving DecidableEq

/-- `LspHeader::parse_from_line`: split on the first `": "`, trim both
sides; a line without the separator is a malformed header. -/
def parse_from_line (line : List Nat) : Except String LspHeader :=
  match splitOnSep line with
  | none =>
    .error ("Malformed LSP header: " ++ quoteCh ++ cpsStr line ++ quoteCh)
  | some p => .ok ⟨trimCps p.1, trimCps p.2⟩

/-- `usize::MAX` on the 64-bit targets the crate builds for. -/
def usizeMax : Nat := 2 ^ 64 - 1

/-- One step of `usize::from_str_radix(_, 10)`: accumulate a digit with
the overflow check. -/
def pushDigit (acc : Except String Nat) (c : Nat) : Except String Nat :=
  match acc with
  | .error e => .error e
  | .ok n =>
    if 0x30 ≤ c && c ≤ 0x39 then
      if n * 10 + (c - 0x30) > usizeMax then
        .error "number too large to fit in target type"
      else .ok (n * 10 + (c - 0x30))
    else .error "invalid digit found in string"

/-- `usize::from_str_radix(src, 10)`: an optional leading `+` (a leading
`-` is an invalid digit for an unsigned target), then at least one ASCII
decimal digit, with overflow checked against `usize::MAX`.  The error
strings are the `ParseIntError` descriptions interpolated by the source. -/
def parseUsize (src : List Nat) : Except String Nat :=
  match src with
  | [] => .error "cannot parse integer from empty string"
  | c :: rest =>
    let digits := if c = 0x2B then rest else src
    match digits with
    | [] => .error "cannot parse integer from empty string"
    | _ => digits.foldl pushDigit (.ok 0)

/-- The `BufRead::read_line` decomposition of a byte stream: each line is
the bytes up to and including a `\n` (byte `0x0A`), with a final
`\n`-less fragment when the stream does not end in a `\n`.  `acc` holds
the current line read so far, reversed. -/
def linesAux (acc : List Nat) : List Nat → List (List Nat)
  | [] => if acc = [] then [] else [acc.reverse]
  | b :: rest =>
    if b = 0x0A then (b :: acc).reverse :: linesAux [] rest
    else linesAux (b :: acc) rest

/-- All `read_line` units of a stream, in order.  Flattening gives back
the stream. -/
def splitLines (input : List Nat) : List (List Nat) := linesAux [] input

/-- The header loop of `read_lsp_packet`, over the `read_line`
decomposition of the stream.  Mirrors the `loop` in `transport.rs`:
* `read_line` handing back non-UTF-8 bytes is an `InvalidData` error
  (raised inside `BufRead::read_line`);
* a zero-byte read (no line left) is `UnexpectedEof`;
* the blank `"\r\n"` line ends the block, returning the recorded
  content-length `ps` and the unconsumed lines (whose flattening is the
  unread byte suffix of the stream);
* every other line must parse as `key: value`; keys other than
  `content-length` (case-insensitively) are skipped; a `content-length`
  value must parse as a `usize`, the last occurrence overwriting `ps`. -/
def processHeaders (ps : Option Nat) :
    List (List Nat) → Except IoError (Option Nat × List (List Nat))
  | [] => .error .unexpectedEof
  | line :: rest =>
    match utf8Decode line with
    | none => .error (.invalidData "stream did not contain valid UTF-8")
    | some buf =>
      if buf = [0x0D, 0x0A] then .ok (ps, rest)
      else
        match parse_from_line buf with
        | .error msg => .error (.invalidData msg)
        | .ok header =>
          if toLowerCps header.key ≠ contentLengthCps then
            processHeaders ps rest
          else
            match parseUsize header.value with
            | .ok size => processHeaders (some size) rest
            | .error e =>
              .error (.invalidData
                ("Value of Content-Length header is invalid number: " ++ e))

/-- `read_lsp_packet` (`transport.rs`): read the header block, require a
`content-length` value, read exactly that many body bytes
(`read_exact`; fewer available bytes is `UnexpectedEof`), and decode
them as UTF-8 text.  Returns the packet text (as scalar values) together
with the unread remainder of the stream. -/
def read_lsp_packet (input : List Nat) :
    Except IoError (List Nat × List Nat) :=
  match processHeaders none (splitLines input) with
  | .error e => .error e
  | .ok (ps, restLines) =>
    match ps with
    | none => .error (.invalidData "Content-Length header is missing")
    | some size =>
      let rest := restLines.flatten
      if size ≤ rest.length then
        match utf8Decode (rest.take size) with
        | some text => .ok (text, rest.drop size)
        | none =>
          .error (.invalidData "Content of a packet is not a valid utf8: invalid utf-8")
      else .error .unexpectedEof

/-- `serde_json::Value`.  Number literals in the `i64`/`u64` ranges with
no fraction or exponent are `num`; any other numeric literal becomes an
`f64` in serde_json, modelled as `fnum` carrying the literal text (no
claim inspects the floating-point value). -/
inductive Json where
  | null
  | bool (b : Bool)
  | num (n : Int)
  | fnum (lit : List Nat)
  | str (s : List Nat)
  | arr (elems : List Json)
  | obj (fields : List (List Nat × Json))

/-- Field lookup in a JSON object's field list. -/
def lookupField : List (List Nat × Json) → List Nat → Option Json
  | [], _ => none
  | (k, v) :: rest, key => if k = key then some v else lookupField rest key

/-- `serde_json::Value::get(key)`: field lookup on objects, `None` on
every other value. -/
def Json.get : Json → List Nat → Option Json
  | .obj fields, key => lookupField fields key
  | _, _ => none

/-- The JSON whitespace skipped by serde_json: space, tab, LF, CR. -/
def skipWs : List Nat → List Nat
  | [] => []
  | c :: rest =>
    if c = 0x20 || c = 0x09 || c = 0x0A || c = 0x0D then skipWs rest
    else c :: rest

/-- ASCII decimal digit. -/
def isDigit (c : Nat) : Bool := 0x30 ≤ c && c ≤ 0x39

/-- Numeric value of a digit string. -/
def digitsVal (l : List Nat) : Nat :=
  l.foldl (fun n c => n * 10 + (c - 0x30)) 0

/-- Value of one hexadecimal digit. -/
def hexVal (c : Nat) : Option Nat :=
  if 0x30 ≤ c && c ≤ 0x39 then some (c - 0x30)
  else if 0x41 ≤ c && c ≤ 0x46 then some (c - 0x41 + 10)
  else if 0x61 ≤ c && c ≤ 0x66 then some (c - 0x61 + 10)
  else none

/-- Value of a four-digit hexadecimal escape. -/
def hex4 (a b c d : Nat) : Option Nat := do
  let x ← hexVal a
  let y ← hexVal b
  let z ← hexVal c
  let w ← hexVal d
  pure (x * 4096 + y * 256 + z * 16 + w)

/-- Body of a JSON string literal after the opening quote, per serde_json:
raw control characters below `0x20` are rejected, the escapes
`\" \\ \/ \b \f \n \r \t \uXXXX` are recognised, `\u` surrogates must
come in well-ordered pairs (combined into one scalar value), and a lone
surrogate is an error.  Returns the string's scalar values and the input
after the closing quote. -/
def parseStringBody : List Nat → Option (List Nat × List Nat)
  | [] => none
  | 0x22 :: rest => some ([], rest)
  | 0x5C :: 0x22 :: r => (parseStringBody r).map (fun p => (0x22 :: p.1, p.2))
  | 0x5C :: 0x5C :: r => (parseStringBody r).map (fun p => (0x5C :: p.1, p.2))
  | 0x5C :: 0x2F :: r => (parseStringBody r).map (fun p => (0x2F :: p.1, p.2))
  | 0x5C :: 0x62 :: r => (parseStringBody r).map (fun p => (0x08 :: p.1, p.2))
  | 0x5C :: 0x66 :: r => (parseStringBody r).map (fun p => (0x0C :: p.1, p.2))
  | 0x5C :: 0x6E :: r => (parseStringBody r).map (fun p => (0x0A :: p.1, p.2))
  | 0x5C :: 0x72 :: r => (parseStringBody r).map (fun p => (0x0D :: p.1, p.2))
  | 0x5C :: 0x74 :: r => (parseStringBody r).map (fun p => (0x09 :: p.1, p.2))
  | 0x5C :: 0x75 :: a :: b :: c :: d :: r =>
    (match hex4 a b c d with
    | none => none
    | some u =>
      if u < 0xD800 || 0xE000 ≤ u then
        (parseStringBody r).map (fun p => (u :: p.1, p.2))
      else if 0xDC00 ≤ u then none
      else
        match r with
        | 0x5C :: 0x75 :: a2 :: b2 :: c2 :: d2 :: r2 =>
          match hex4 a2 b2 c2 d2 with
          | none => none
          | some u2 =>
            if 0xDC00 ≤ u2 && u2 < 0xE000 then
              (parseStringBody r2).map (fun p =>
                ((0x10000 + (u - 0xD800) * 0x400 + (u2 - 0xDC00)) :: p.1, p.2))
            else none
        | _ => none)
  | 0x5C :: _ :: _ => none
  | 0x5C :: [] => none
  | c :: rest =>
    if c < 0x20 then none
    else (parseStringBody rest).map (fun p => (c :: p.1, p.2))

/-- The fraction part of a number literal: absent, or `.` followed by at
least one digit.  The Bool is `true` when the number is still integral. -/
def parseFrac : List Nat → Option (Bool × List Nat)
  | 0x2E :: r =>
    let ds := r.takeWhile isDigit
    if ds = [] then none else some (false, r.drop ds.length)
  | input => some (true, input)

/-- The exponent part of a number literal: absent, or `e`/`E`, an
optional sign, and at least one digit. -/
def parseExp : List Nat → Option (Bool × List Nat)
  | c :: r =>
    if c = 0x65 || c = 0x45 then
      let body := match r with
        | s :: r2 => if s = 0x2B || s = 0x2D then r2 else s :: r2
        | [] => []
      let ds := body.takeWhile isDigit
      if ds = [] then none else some (false, body.drop ds.length)
    else some (true, c :: r)
  | [] => some (true, [])

/-- A JSON number literal per serde_json: optional `-`, an integer part
with no leading zero, optional fraction and exponent.  An integral
literal within `i64`/`u64` range is an integer `Value`; everything else
parses as `f64` (`fnum`, carrying the consumed literal). -/
def parseNumber (input : List Nat) : Option (Json × List Nat) :=
  let s1 := match input with
    | 0x2D :: r => r
    | _ => input
  let neg : Bool := match input with
    | 0x2D :: _ => true
    | _ => false
  let intDigits := s1.takeWhile isDigit
  let s2 := s1.drop intDigits.length
  if intDigits = [] then none
  else if 1 < intDigits.length && intDigits.head? = some 0x30 then none
  else
    match parseFrac s2 with
    | none => none
    | some (fi, s3) =>
      match parseExp s3 with
      | none => none
      | some (ei, s4) =>
        let lit := input.take (input.length - s4.length)
        if fi && ei then
          let v : Int := if neg then -(digitsVal intDigits : Int)
            else (digitsVal intDigits : Int)
          if -(2 ^ 63 : Int) ≤ v && v ≤ ((2 ^ 64 - 1 : Nat) : Int) then
            some (.num v, s4)
          else some (.fnum lit, s4)
        else some (.fnum lit, s4)

/-- Insertion into the object under construction: serde_json collects
members into a map whose `insert` overwrites the value of an existing
key (duplicate keys: the last one wins). -/
def objInsert : List (List Nat × Json) → List Nat → Json →
    List (List Nat × Json)
  | [], k, v => [(k, v)]
  | (k2, v2) :: rest, k, v =>
    if k2 = k then (k2, v) :: rest else (k2, v2) :: objInsert rest k v

/-!
Recursive descent over JSON values, arrays and object members, mirroring
serde_json's grammar.  The `Nat` fuel only bounds the recursion depth so
Lean accepts the mutual definition; at most two units are spent per
consumed input character, so the bound chosen by `json_from_str`
strictly exceeds what any input can use.
-/
mutual

def parseValue : Nat → List Nat → Option (Json × List Nat)
  | 0, _ => none
  | f + 1, input =>
    match input with
    | 0x6E :: 0x75 :: 0x6C :: 0x6C :: r => some (.null, r)
    | 0x74 :: 0x72 :: 0x75 :: 0x65 :: r => some (.bool true, r)
    | 0x66 :: 0x61 :: 0x6C :: 0x73 :: 0x65 :: r => some (.bool false, r)
    | 0x22 :: r => (parseStringBody r).map (fun p => (.str p.1, p.2))
    | 0x5B :: r =>
      (match skipWs r with
      | 0x5D :: r2 => some (.arr [], r2)
      | r1 => parseElems f r1 [])
    | 0x7B :: r =>
      (match skipWs r with
      | 0x7D :: r2 => some (.obj [], r2)
      | r1 => parseMembers f r1 [])
    | c :: r => if c = 0x2D || isDigit c then parseNumber (c :: r) else none
    | [] => none

def parseElems : Nat → List Nat → List Json → Option (Json × List Nat)
  | 0, _, _ => none
  | f + 1, input, acc =>
    match parseValue f input with
    | none => none
    | some (v, r) =>
      match skipWs r with
      | 0x2C :: r2 => parseElems f (skipWs r2) (acc ++ [v])
      | 0x5D :: r2 => some (.arr (acc ++ [v]), r2)
      | _ => none

def parseMembers : Nat → List Nat → List (List Nat × Json) →
    Option (Json × List Nat)
  | 0, _, _ => none
  | f + 1, input, acc =>
    match input with
    | 0x22 :: r =>
      (match parseStringBody r with
      | none => none
      | some (key, r2) =>
        match skipWs r2 with
        | 0x3A :: r3 =>
          (match parseValue f (skipWs r3) with
          | none => none
          | some (v, r4) =>
            match skipWs r4 with
            | 0x2C :: r5 => parseMembers f (skipWs r5) (objInsert acc key v)
            | 0x7D :: r5 => some (.obj (objInsert acc key v), r5)
            | _ => none)
        | _ => none)
    | _ => none

end

/-- `serde_json::from_str::<Value>`: parse one JSON document with
optional surrounding whitespace; anything left after it is an error. -/
def json_from_str (packet : List Nat) : Option Json :=
  match parseValue (2 * packet.length + 2) (skipWs packet) with
  | none => none
  | some (v, rest) => if skipWs rest = [] then some v else none

/-- `jsonrpc_core::Id`: the JSON-RPC id union — null, a `u64` number, or
a string. -/
inductive Id where
  | null
  | num (n : Nat)
  | str (s : List Nat)
deriving DecidableEq

/-- serde deserialization of an `Id` from a JSON value: `null`, a number
representable as `u64`, or a string; any other shape fails to
deserialize. -/
def idFromJson : Json → Option Id
  | .null => some .null
  | .num n => if 0 ≤ n && n < (2 : Int) ^ 64 then some (Id.num n.toNat) else none
  | .str s => some (.str s)
  | _ => none

/-- `jsonrpc_core::Error`: code, message, optional structured data. -/
structure RpcError where
  code : Int
  message : String
  data : Option Json

/-- `jsonrpc_core::Error::invalid_request()`. -/
def invalid_request : RpcError := ⟨-32600, "Invalid request", none⟩

/-- `jsonrpc_core::Failure` as built by `parse_message`; the constant
`jsonrpc: Some(Version::V2)` field is implicit. -/
structure Failure where
  id : Id
  error : RpcError

/-- `JsonResponseHandle`: the response dispatcher attached to a parsed
request.  Its `id` field is the `i32` the source fills with the literal
`123`; the borrowed server/transport is modelled by letting `success`
and `failure` return the list of packet bodies they write. -/
structure JsonResponseHandle where
  id : Int

/-- `RawRequest` (`rpc.rs`): method, params, and the response handle.
The parsed JSON-RPC id is not stored anywhere in this structure. -/
structure RawRequest where
  method : List Nat
  params : Json
  response : JsonResponseHandle

/-- `RawNotification` (`rpc.rs`). -/
structure RawNotification where
  method : List Nat
  params : Json

/-- `Message` (`rpc.rs`): an incoming request or notification. -/
inductive Message where
  | request (r : RawRequest)
  | notification (n : RawNotification)

/-- serde serialization of `jsonrpc_core::Error` (the `data` member is
skipped when `None`). -/
def rpcErrorJson (e : RpcError) : Json :=
  .obj ((strCps "code", .num e.code) ::
    (strCps "message", .str (strCps e.message)) ::
    (match e.data with
     | none => []
     | some d => [(strCps "data", d)]))

/-- `JsonResponseHandle::success`: writes through the transport exactly
one packet, whose body is the document built by
`json!({ "result": result })`. -/
def JsonResponseHandle.success (_ : JsonResponseHandle) (result : Json) :
    List Json :=
  [Json.obj [(strCps "result", result)]]

/-- `JsonResponseHandle::failure`: writes through the transport exactly
one packet, whose body is the document built by
`json!({ "error": error })`. -/
def JsonResponseHandle.failure (_ : JsonResponseHandle) (error : RpcError) :
    List Json :=
  [Json.obj [(strCps "error", rpcErrorJson error)]]

/-- The `"id"` field name. -/
def idKey : List Nat := strCps "id"

/-- The `"method"` field name. -/
def methodKey : List Nat := strCps "method"

/-- The `"params"` field name. -/
def paramsKey : List Nat := strCps "params"

/-- `JsonRpcServer::parse_message` applied to an already-parsed document.
`none` models a panic: the source unwraps the id deserialization
(`// TODO: do not unwrap`), unwraps `method.as_str()`, and calls
`panic!("test")` on a params value that is neither object, array nor
null (`// TODO: do not panic`). -/
def parse_message_v (msg : Json) : Option (Except Failure Message) :=
  match (match msg.get idKey with
         | none => some Id.null
         | some j => idFromJson j) with
  | none => none
  | some id =>
    match msg.get methodKey with
    | none => some (.error ⟨id, invalid_request⟩)
    | some mj =>
      match mj with
      | .str method =>
        let finish : Json → Option (Except Failure Message) := fun params =>
          match id with
          | .null => some (.ok (.notification ⟨method, params⟩))
          | _ => some (.ok (.request ⟨method, params, ⟨123⟩⟩))
        (match msg.get paramsKey with
        | some (Json.obj fs) => finish (Json.obj fs)
        | some (Json.arr es) => finish (Json.arr es)
        | some Json.null => finish Json.null
        | none => finish Json.null
        | some _ => none)
      | _ => none

/-- `JsonRpcServer::parse_message`: `serde_json::from_str` (whose
`unwrap` panics on invalid JSON — modelled as `none`) followed by the
envelope analysis. -/
def parse_message (packet : List Nat) : Option (Except Failure Message) :=
  match json_from_str packet with
  | none => none
  | some msg => parse_message_v msg

/-- `linesAux` partitions the stream: flattening the lines gives back the
pending bytes and the remaining input.  Part of the termination argument
of `read_message`. -/
theorem linesAux_flatten (input : List Nat) : ∀ acc : List Nat,
    (linesAux acc input).flatten = acc.reverse ++ input := by
  induction input with
  | nil =>
    intro acc
    by_cases h : acc = [] <;> simp [linesAux, h]
  | cons b rest ih =>
    intro acc
    by_cases h : b = 0x0A <;> simp [linesAux, h, ih]

/-- Flattening the `read_line` decomposition gives back the stream. -/
theorem splitLines_flatten (input : List Nat) :
    (splitLines input).flatten = input := by
  simpa using linesAux_flatten input []

/-- A successful header block strictly consumes input (at least the blank
line).  Part of the termination argument of `read_message`. -/
theorem processHeaders_consumed (lines : List (List Nat)) :
    ∀ ps q restLines, processHeaders ps lines = .ok (q, restLines) →
    restLines.flatten.length < lines.flatten.length := by
  induction lines with
  | nil => intro ps q restLines h; simp [processHeaders] at h
  | cons line rest ih =>
    intro ps q restLines h
    rw [processHeaders] at h
    split at h
    · simp at h
    · rename_i buf hdec
      split at h
      · rename_i hblank
        have hr : restLines = rest := by cases h; rfl
        have hne : line ≠ [] := by
          intro hl
          subst hl
          rw [show utf8Decode [] = some [] from rfl] at hdec
          cases hdec
          exact absurd hblank (by simp)
        have : 0 < line.length := List.length_pos.mpr hne
        subst hr
        simp only [List.flatten_cons, List.length_append]
        omega
      · split at h
        · simp at h
        · split at h
          · have := ih _ _ _ h
            simp only [List.flatten_cons, List.length_append]
            omega
          · split at h
            · have := ih _ _ _ h
              simp only [List.flatten_cons, List.length_append]
              omega
            · simp at h

/-- A successfully framed packet strictly consumes input.  Termination
argument of `read_message`. -/
theorem read_lsp_packet_shrinks {input packet rest : List Nat}
    (h : read_lsp_packet input = .ok (packet, rest)) :
    rest.length < input.length := by
  rw [read_lsp_packet] at h
  split at h
  · simp at h
  · rename_i ps restLines hph
    have hlt : restLines.flatten.length < input.length := by
      have := processHeaders_consumed (splitLines input) _ _ _ hph
      rwa [splitLines_flatten] at this
    split at h
    · simp at h
    · rename_i size
      simp only at h
      split at h
      · split at h
        · have hr : rest = restLines.flatten.drop size := by cases h; rfl
          rw [hr]
          have := List.length_drop size restLines.flatten
          omega
        · simp at h
      · simp at h

/-- `JsonRpcServer::read_message`, composed with the LSP framing
transport (`LspTransport::receive_packet = read_lsp_packet`): an I/O
error from the framer propagates immediately through `?`; a packet whose
parse succeeds is returned together with the unread remainder of the
stream; a structured parse failure is dropped (the source's TODO: send
it back to the client) and the loop reads the next packet.  `none`
models a panic escaping `parse_message`. -/
def read_message (input : List Nat) :
    Option (Except IoError (Message × List Nat)) :=
  match h : read_lsp_packet input with
  | .error e => some (.error e)
  | .ok (packet, rest) =>
    match parse_message packet with
    | none => none
    | some (.ok m) => some (.ok (m, rest))
    | some (.error _) => read_message rest
termination_by input.length
decreasing_by exact read_lsp_packet_shrinks h

/-- One `read_line` unit: the line ends with its only `\n`. -/
def lineShaped (l : List Nat) : Bool :=
  l.getLast? = some 0x0A && l.dropLast.count 0x0A = 0

/-- A well-formed framing header line, as the claims quantify over them:
one `read_line` unit, valid UTF-8, not the blank line, parsing as
`key: value`, and, when its key is `content-length`, carrying a value
that parses as a `usize`. -/
def goodHeaderLine (l : List Nat) : Bool :=
  lineShaped l &&
  match utf8Decode l with
  | none => false
  | some buf =>
    if buf = [0x0D, 0x0A] then false
    else
      match parse_from_line buf with
      | .error _ => false
      | .ok header =>
        if toLowerCps header.key = contentLengthCps then
          (parseUsize header.value).isOk
        else true

/-- The content-length value a header line contributes: `some n` for a
`content-length` line whose value parses as `n`, `none` otherwise. -/
def lineCL (l : List Nat) : Option Nat :=
  match utf8Decode l with
  | none => none
  | some buf =>
    match parse_from_line buf with
    | .error _ => none
    | .ok header =>
      if toLowerCps header.key = contentLengthCps then
        match parseUsize header.value with
        | .ok n => some n
        | .error _ => none
      else none

/-- The `packet_size` state after scanning one more header line: a
`content-length` line overwrites it, so over a whole block the last
occurrence wins. -/
def updPS (ps : Option Nat) (l : List Nat) : Option Nat :=
  match lineCL l with
  | some n => some n
  | none => ps

/-- The well-shaped `params` values of the claims: an object, an array,
JSON `null`, or an absent field. -/
def paramsShapeOk : Option Json → Bool
  | some (.obj _) => true
  | some (.arr _) => true
  | some .null => true
  | none => true
  | some _ => false

/-- The normalized params value `parse_message` keeps: objects and arrays
as received, `null` and absent both normalized to `Value::Null`. -/
def normParams : Option Json → Json
  | some (.obj fs) => .obj fs
  | some (.arr es) => .arr es
  | _ => .null

/-- The result value `{"success": "yes"}` from the source's test. -/
def demoResult : Json := .obj [(strCps "success", .str (strCps "yes"))]

/-- The params value `{"key": "value"}` from the source's tests. -/
def demoParams : Json := .obj [(strCps "key", .str (strCps "value"))]

/-- The request packet from the source's test:
`{"id":123,"method":"hover","params":{"key":"value"}}`. -/
def demoRequestPacket : List Nat :=
  strCps "\x7b\x22id\x22:123,\x22method\x22:\x22hover\x22,\x22params\x22:\x7b\x22key\x22:\x22value\x22\x7d\x7d"

/-- `read_line` on a stream starting with a complete line: the line is
read and the rest left. -/
theorem linesAux_line (p : List Nat) : ∀ (acc rest : List Nat),
    p.count 0x0A = 0 →
    linesAux acc (p ++ 0x0A :: rest) =
      (acc.reverse ++ (p ++ [0x0A])) :: linesAux [] rest := by
  induction p with
  | nil => intro acc rest _; simp [linesAux]
  | cons b p ih =>
    intro acc rest hcount
    have hb : b ≠ 0x0A := by
      intro hb
      subst hb
      rw [List.count_cons_self] at hcount
      omega
    have hp : p.count 0x0A = 0 := by
      simpa [List.count_cons, Ne.symm hb] using hcount
    simp only [List.cons_append, linesAux, if_neg hb, List.append_eq]
    rw [ih (b :: acc) rest hp]
    simp

/-- `splitLines` on a stream starting with a complete line. -/
theorem splitLines_cons {l : List Nat} (rest : List Nat)
    (h : lineShaped l = true) :
    splitLines (l ++ rest) = l :: splitLines rest := by
  rcases List.eq_nil_or_concat l with rfl | ⟨p, a, rfl⟩
  · simp [lineShaped] at h
  · simp only [List.concat_eq_append] at h ⊢
    simp only [lineShaped, List.getLast?_concat, List.dropLast_concat,
      Bool.and_eq_true, decide_eq_true_eq, Option.some.injEq] at h
    obtain ⟨ha, hcount⟩ := h
    subst ha
    have := linesAux_line p [] rest hcount
    simpa [splitLines, List.append_assoc] using this

/-- `splitLines` over a block of complete lines followed by a tail. -/
theorem splitLines_append (lines : List (List Nat)) :
    ∀ tail : List Nat, (∀ l ∈ lines, lineShaped l = true) →
    splitLines (lines.flatten ++ tail) = lines ++ splitLines tail := by
  induction lines with
  | nil => intro tail _; simp
  | cons line rest ih =>
    intro tail hsh
    have h1 : lineShaped line = true := hsh line (by simp)
    have h2 : ∀ l ∈ rest, lineShaped l = true := fun l hl => hsh l (by simp [hl])
    simp only [List.flatten_cons, List.append_assoc]
    rw [splitLines_cons _ h1, ih _ h2]
    rfl

/-- A `goodHeaderLine` is in particular a complete `read_line` unit. -/
theorem goodHeaderLine_shaped {l : List Nat} (h : goodHeaderLine l = true) :
    lineShaped l = true := by
  unfold goodHeaderLine at h
  exact (Bool.and_eq_true _ _).mp h |>.1

/-- The header loop scans a block of well-formed header lines, folding
the content-length state with `updPS`, and continues on the tail. -/
theorem processHeaders_good_append (lines : List (List Nat)) :
    ∀ (ps : Option Nat) (tail : List (List Nat)),
    (∀ l ∈ lines, goodHeaderLine l = true) →
    processHeaders ps (lines ++ tail) =
      processHeaders (lines.foldl updPS ps) tail := by
  induction lines with
  | nil => intro ps tail _; simp
  | cons line rest ih =>
    intro ps tail hgood
    have hline := hgood line (by simp)
    have hrest : ∀ l ∈ rest, goodHeaderLine l = true :=
      fun l hl => hgood l (by simp [hl])
    rw [List.cons_append, processHeaders]
    unfold goodHeaderLine at hline
    cases hdec : utf8Decode line with
    | none => rw [hdec] at hline; simp at hline
    | some buf =>
      rw [hdec] at hline
      simp only [Bool.and_eq_true] at hline
      obtain ⟨-, hbody⟩ := hline
      by_cases hblank : buf = [0x0D, 0x0A]
      · rw [if_pos hblank] at hbody; simp at hbody
      · rw [if_neg hblank] at hbody
        simp only [hdec, if_neg hblank]
        cases hpl : parse_from_line buf with
        | error msg => rw [hpl] at hbody; simp at hbody
        | ok header =>
          rw [hpl] at hbody
          simp only [hpl]
          simp only [hpl] at hbody
          by_cases hkey : toLowerCps header.key = contentLengthCps
          · rw [if_pos hkey] at hbody
            rw [if_neg (not_not_intro hkey)]
            cases hus : parseUsize header.value with
            | error e =>
              rw [hus] at hbody
              simp [Except.isOk, Except.toBool] at hbody
            | ok n =>
              show processHeaders (some n) (rest ++ tail) =
                processHeaders (List.foldl updPS ps (line :: rest)) tail
              rw [ih (some n) tail hrest]
              have hupd : updPS ps line = some n := by
                simp [updPS, lineCL, hdec, hpl, hkey, hus]
              rw [List.foldl_cons, hupd]
          · rw [if_pos hkey]
            rw [ih ps tail hrest]
            have hupd : updPS ps line = ps := by
              simp [updPS, lineCL, hdec, hpl, hkey]
            rw [List.foldl_cons, hupd]

/-- The header loop stops at the blank line, returning the recorded
content-length state. -/
theorem processHeaders_blank (ps : Option Nat) (tail : List (List Nat)) :
    processHeaders ps ([0x0D, 0x0A] :: tail) = .ok (ps, tail) := rfl

/-- Framing succeeds on a well-formed packet: a block of well-formed
header lines whose content-length fold yields `N`, the blank line, `N`
body bytes that decode as UTF-8 text, and arbitrary further bytes.  The
returned packet is the decoded body, and the remainder is untouched. -/
theorem read_lsp_packet_wf (lines : List (List Nat))
    (body rest text : List Nat) (N : Nat)
    (hgood : ∀ l ∈ lines, goodHeaderLine l = true)
    (hcl : lines.foldl updPS none = some N)
    (hlen : body.length = N)
    (htext : utf8Decode body = some text) :
    read_lsp_packet (lines.flatten ++ [0x0D, 0x0A] ++ body ++ rest) =
      .ok (text, rest) := by
  rw [read_lsp_packet]
  have hsplit : splitLines (lines.flatten ++ [0x0D, 0x0A] ++ body ++ rest) =
      lines ++ [0x0D, 0x0A] :: splitLines (body ++ rest) := by
    have h1 : lines.flatten ++ [0x0D, 0x0A] ++ body ++ rest =
        lines.flatten ++ ([0x0D, 0x0A] ++ (body ++ rest)) := by
      simp [List.append_assoc]
    rw [h1, splitLines_append lines _
        (fun l hl => goodHeaderLine_shaped (hgood l hl)),
      splitLines_cons (body ++ rest) (by decide)]
  rw [hsplit, processHeaders_good_append lines none _ hgood, hcl,
    processHeaders_blank]
  subst hlen
  simp [splitLines_flatten, List.take_left, List.drop_left, htext]

/-- Framing fails with the missing-header message when the header block
ends with no `content-length` header. -/
theorem read_lsp_packet_missing_cl (lines : List (List Nat))
    (tail : List Nat)
    (hgood : ∀ l ∈ lines, goodHeaderLine l = true)
    (hcl : lines.foldl updPS none = none) :
    read_lsp_packet (lines.flatten ++ [0x0D, 0x0A] ++ tail) =
      .error (.invalidData "Content-Length header is missing") := by
  rw [read_lsp_packet, List.append_assoc,
    splitLines_append lines _ (fun l hl => goodHeaderLine_shaped (hgood l hl)),
    splitLines_cons tail (by decide),
    processHeaders_good_append lines none _ hgood, hcl, processHeaders_blank]

/-- A header line that is a complete `read_line` unit but is not valid
UTF-8 fails the packet inside `read_line`. -/
theorem read_lsp_packet_bad_utf8_line (lines : List (List Nat))
    (bad tail : List Nat)
    (hgood : ∀ l ∈ lines, goodHeaderLine l = true)
    (hshape : lineShaped bad = true)
    (hdec : utf8Decode bad = none) :
    read_lsp_packet (lines.flatten ++ bad ++ tail) =
      .error (.invalidData "stream did not contain valid UTF-8") := by
  rw [read_lsp_packet, List.append_assoc,
    splitLines_append lines _ (fun l hl => goodHeaderLine_shaped (hgood l hl)),
    splitLines_cons tail hshape,
    processHeaders_good_append lines none _ hgood, processHeaders]
  rw [hdec]

/-- A header line without the `": "` separator fails the packet with the
malformed-header message. -/
theorem read_lsp_packet_malformed (lines : List (List Nat))
    (bad tail buf : List Nat) (msg : String)
    (hgood : ∀ l ∈ lines, goodHeaderLine l = true)
    (hshape : lineShaped bad = true)
    (hdec : utf8Decode bad = some buf)
    (hblank : buf ≠ [0x0D, 0x0A])
    (hpl : parse_from_line buf = .error msg) :
    read_lsp_packet (lines.flatten ++ bad ++ tail) =
      .error (.invalidData msg) := by
  rw [read_lsp_packet, List.append_assoc,
    splitLines_append lines _ (fun l hl => goodHeaderLine_shaped (hgood l hl)),
    splitLines_cons tail hshape,
    processHeaders_good_append lines none _ hgood, processHeaders]
  simp only [hdec, if_neg hblank, hpl]

/-- A `content-length` header whose value does not parse as a `usize`
fails the packet with the invalid-number message. -/
theorem read_lsp_packet_bad_value (lines : List (List Nat))
    (bad tail buf : List Nat) (header : LspHeader) (e : String)
    (hgood : ∀ l ∈ lines, goodHeaderLine l = true)
    (hshape : lineShaped bad = true)
    (hdec : utf8Decode bad = some buf)
    (hblank : buf ≠ [0x0D, 0x0A])
    (hpl : parse_from_line buf = .ok header)
    (hkey : toLowerCps header.key = contentLengthCps)
    (hus : parseUsize header.value = .error e) :
    read_lsp_packet (lines.flatten ++ bad ++ tail) =
      .error (.invalidData
        ("Value of Content-Length header is invalid number: " ++ e)) := by
  rw [read_lsp_packet, List.append_assoc,
    splitLines_append lines _ (fun l hl => goodHeaderLine_shaped (hgood l hl)),
    splitLines_cons tail hshape,
    processHeaders_good_append lines none _ hgood, processHeaders]
  simp only [hdec, if_neg hblank, hpl, if_neg (not_not_intro hkey), hus]

/-- The stream ending inside the header block — including the empty
stream — is a zero-byte read, an `UnexpectedEof`. -/
theorem read_lsp_packet_eof_in_headers (lines : List (List Nat))
    (hgood : ∀ l ∈ lines, goodHeaderLine l = true) :
    read_lsp_packet lines.flatten = .error .unexpectedEof := by
  rw [read_lsp_packet, show lines.flatten = lines.flatten ++ [] by simp,
    splitLines_append lines _ (fun l hl => goodHeaderLine_shaped (hgood l hl)),
    processHeaders_good_append lines none _ hgood]
  rfl

/-- A body shorter than the announced content-length is an
`UnexpectedEof` from `read_exact`. -/
theorem read_lsp_packet_short_body (lines : List (List Nat))
    (body : List Nat) (N : Nat)
    (hgood : ∀ l ∈ lines, goodHeaderLine l = true)
    (hcl : lines.foldl updPS none = some N)
    (hshort : body.length < N) :
    read_lsp_packet (lines.flatten ++ [0x0D, 0x0A] ++ body) =
      .error .unexpectedEof := by
  rw [read_lsp_packet, List.append_assoc,
    splitLines_append lines _ (fun l hl => goodHeaderLine_shaped (hgood l hl)),
    splitLines_cons body (by decide),
    processHeaders_good_append lines none _ hgood, hcl, processHeaders_blank]
  simp only [splitLines_flatten]
  rw [if_neg (by omega)]

/-- Announced body bytes that are not valid UTF-8 fail the packet with
the invalid-utf8 message. -/
theorem read_lsp_packet_bad_body (lines : List (List Nat))
    (body rest : List Nat) (N : Nat)
    (hgood : ∀ l ∈ lines, goodHeaderLine l = true)
    (hcl : lines.foldl updPS none = some N)
    (hlen : body.length = N)
    (hbad : utf8Decode body = none) :
    read_lsp_packet (lines.flatten ++ [0x0D, 0x0A] ++ body ++ rest) =
      .error (.invalidData
        "Content of a packet is not a valid utf8: invalid utf-8") := by
  rw [read_lsp_packet]
  have hsplit : splitLines (lines.flatten ++ [0x0D, 0x0A] ++ body ++ rest) =
      lines ++ [0x0D, 0x0A] :: splitLines (body ++ rest) := by
    have h1 : lines.flatten ++ [0x0D, 0x0A] ++ body ++ rest =
        lines.flatten ++ ([0x0D, 0x0A] ++ (body ++ rest)) := by
      simp [List.append_assoc]
    rw [h1, splitLines_append lines _
        (fun l hl => goodHeaderLine_shaped (hgood l hl)),
      splitLines_cons (body ++ rest) (by decide)]
  rw [hsplit, processHeaders_good_append lines none _ hgood, hcl,
    processHeaders_blank]
  subst hlen
  simp [splitLines_flatten, List.take_left, hbad]

/-- A failure of `parse_from_line` always carries the malformed-header
message built around the offending line. -/
theorem parse_from_line_error_shape {buf : List Nat} {msg : String}
    (h : parse_from_line buf = .error msg) :
    ∃ s : String,
      msg = "Malformed LSP header: " ++ quoteCh ++ s ++ quoteCh := by
  unfold parse_from_line at h
  cases hsp : splitOnSep buf with
  | none =>
    rw [hsp] at h
    cases h
    exact ⟨cpsStr buf, rfl⟩
  | some p => rw [hsp] at h; cases h

/-- Completeness of the header loop's outcomes: it either succeeds or
fails with `UnexpectedEof` or with an `InvalidData` carrying one of the
three header-phase messages. -/
theorem processHeaders_errors (lines : List (List Nat)) :
    ∀ ps : Option Nat,
    (∃ q rest, processHeaders ps lines = .ok (q, rest))
    ∨ processHeaders ps lines = .error .unexpectedEof
    ∨ processHeaders ps lines =
        .error (.invalidData "stream did not contain valid UTF-8")
    ∨ (∃ s : String, processHeaders ps lines =
        .error (.invalidData
          ("Malformed LSP header: " ++ quoteCh ++ s ++ quoteCh)))
    ∨ (∃ e : String, processHeaders ps lines =
        .error (.invalidData
          ("Value of Content-Length header is invalid number: " ++ e))) := by
  induction lines with
  | nil =>
    intro ps
    exact Or.inr (Or.inl rfl)
  | cons line rest ih =>
    intro ps
    rw [processHeaders]
    cases hdec : utf8Decode line with
    | none =>
      simp only [hdec]
      exact Or.inr (Or.inr (Or.inl trivial))
    | some buf =>
      simp only [hdec]
      by_cases hblank : buf = [0x0D, 0x0A]
      · simp only [if_pos hblank]
        exact Or.inl ⟨ps, rest, rfl⟩
      · simp only [if_neg hblank]
        cases hpl : parse_from_line buf with
        | error msg =>
          simp only [hpl]
          obtain ⟨s, hs⟩ := parse_from_line_error_shape hpl
          exact Or.inr (Or.inr (Or.inr (Or.inl ⟨s, by rw [hs]⟩)))
        | ok header =>
          simp only [hpl]
          by_cases hkey : toLowerCps header.key ≠ contentLengthCps
          · simp only [if_pos hkey]
            exact ih ps
          · simp only [if_neg hkey]
            cases hus : parseUsize header.value with
            | ok size =>
              simp only [hus]
              exact ih (some size)
            | error e =>
              simp only [hus]
              exact Or.inr (Or.inr (Or.inr (Or.inr ⟨e, rfl⟩)))

/-- Completeness of `receive_packet`'s outcomes: on every byte stream it
either returns a packet, or fails with `UnexpectedEof`, or fails with an
`InvalidData` carrying one of exactly five messages — the missing
content-length, the malformed header line, the invalid content-length
number, the non-UTF-8 header line, or the non-UTF-8 body. -/
theorem read_lsp_packet_classify (input : List Nat) :
    (∃ t r, read_lsp_packet input = .ok (t, r))
    ∨ read_lsp_packet input = .error .unexpectedEof
    ∨ read_lsp_packet input =
        .error (.invalidData "Content-Length header is missing")
    ∨ read_lsp_packet input =
        .error (.invalidData "stream did not contain valid UTF-8")
    ∨ (∃ s : String, read_lsp_packet input =
        .error (.invalidData
          ("Malformed LSP header: " ++ quoteCh ++ s ++ quoteCh)))
    ∨ (∃ e : String, read_lsp_packet input =
        .error (.invalidData
          ("Value of Content-Length header is invalid number: " ++ e)))
    ∨ read_lsp_packet input =
        .error (.invalidData
          "Content of a packet is not a valid utf8: invalid utf-8") := by
  rw [read_lsp_packet]
  rcases processHeaders_errors (splitLines input) none with
    ⟨q, rest, hph⟩ | hph | hph | ⟨s, hph⟩ | ⟨e, hph⟩
  · simp only [hph]
    cases q with
    | none => exact Or.inr (Or.inr (Or.inl rfl))
    | some size =>
      by_cases hsz : size ≤ rest.flatten.length
      · simp only [if_pos hsz]
        cases hdec : utf8Decode (rest.flatten.take size) with
        | some text =>
          simp only [hdec]
          exact Or.inl ⟨text, rest.flatten.drop size, rfl⟩
        | none =>
          simp only [hdec]
          exact Or.inr (Or.inr (Or.inr (Or.inr (Or.inr (Or.inr trivial)))))
      · simp only [if_neg hsz]
        exact Or.inr (Or.inl trivial)
  · simp only [hph]
    exact Or.inr (Or.inl trivial)
  · simp only [hph]
    exact Or.inr (Or.inr (Or.inr (Or.inl trivial)))
  · simp only [hph]
    exact Or.inr (Or.inr (Or.inr (Or.inr (Or.inl ⟨s, rfl⟩))))
  · simp only [hph]
    exact Or.inr (Or.inr (Or.inr (Or.inr (Or.inr (Or.inl ⟨e, rfl⟩)))))

/-- An I/O error from the framer propagates out of `read_message`
through `?`. -/
theorem read_message_of_err {input : List Nat} {e : IoError}
    (h : read_lsp_packet input = .error e) :
    read_message input = some (.error e) := by
  unfold read_message
  split
  · rename_i e2 heq
    rw [h] at heq
    cases heq
    rfl
  · rename_i packet rest heq
    rw [h] at heq
    cases heq

/-- A packet that frames and parses is returned by `read_message`
together with the unread remainder of the stream. -/
theorem read_message_of_ok {input packet rest : List Nat} {m : Message}
    (h : read_lsp_packet input = .ok (packet, rest))
    (hp : parse_message packet = some (.ok m)) :
    read_message input = some (.ok (m, rest)) := by
  unfold read_message
  split
  · rename_i e2 heq
    rw [h] at heq
    cases heq
  · rename_i packet2 rest2 heq
    rw [h] at heq
    cases heq
    rw [hp]

/-- A packet that frames but fails JSON-RPC parsing with a structured
failure is dropped, and the loop continues on the remainder. -/
theorem read_message_of_failure {input packet rest : List Nat}
    {f : Failure}
    (h : read_lsp_packet input = .ok (packet, rest))
    (hp : parse_message packet = some (.error f)) :
    read_message input = read_message rest := by
  rw [read_message]
  split
  · rename_i e2 heq
    rw [h] at heq
    cases heq
  · rename_i packet2 rest2 heq
    rw [h] at heq
    cases heq
    rw [hp]

/-- Claim C1, counterexample.  The source's own test packet
`{"id":123,"method":"hover","params":{"key":"value"}}` parses to a
Request; invoking `success({"success":"yes"})` on its dispatcher writes
one packet whose body is `{"result":{"success":"yes"}}` — it has no
`jsonrpc` member and no `id` member, and is not the document
`{"jsonrpc":"2.0","id":123,"result":{"success":"yes"}}` the claim
requires. -/
theorem C1_counterexample :
    parse_message demoRequestPacket =
      some (.ok (.request ⟨strCps "hover", demoParams, ⟨123⟩⟩)) ∧
    (JsonResponseHandle.mk 123).success demoResult =
      [.obj [(strCps "result", demoResult)]] ∧
    (Json.obj [(strCps "result", demoResult)]).get (strCps "jsonrpc") =
      none ∧
    (Json.obj [(strCps "result", demoResult)]).get idKey = none ∧
    [Json.obj [(strCps "result", demoResult)]] ≠
      [Json.obj [(strCps "jsonrpc", .str (strCps "2.0")), (idKey, .num 123),
        (strCps "result", demoResult)]] := by
  refine ⟨rfl, rfl, rfl, rfl, ?_⟩
  intro h
  injection h with h1 _
  injection h1 with h2
  exact absurd (congrArg List.length h2) (by decide)

/-- Claim C1, amended: for every parsed Request, `success(result)` writes
through the transport exactly one packet, whose body is the document
`{"result": result}` (no `jsonrpc` and no `id` members — the handle's
bound id, the constant `123`, is not serialized); `failure(error)`
analogously writes `{"error": error}`. -/
theorem C1_theorem : ∀ (packet : List Nat) (r : RawRequest),
    parse_message packet = some (.ok (.request r)) →
    (∀ result : Json,
      r.response.success result = [.obj [(strCps "result", result)]]) ∧
    (∀ err : RpcError,
      r.response.failure err = [.obj [(strCps "error", rpcErrorJson err)]]) :=
  fun _ _ _ => ⟨fun _ => rfl, fun _ => rfl⟩

/-- Witness for C1: the source's test request, with `success` writing the
single `{"result":{"success":"yes"}}` packet. -/
theorem C1_witness :
    (JsonResponseHandle.mk 123).success demoResult =
      [.obj [(strCps "result", demoResult)]] :=
  (C1_theorem demoRequestPacket ⟨strCps "hover", demoParams, ⟨123⟩⟩ rfl).1
    demoResult

/-- Claim C2, counterexample.  A stream holding a packet with a bad
header line (`Invalid-Header`, no `": "` separator) followed by a valid
packet makes `read_message` return the framing error immediately — the
malformed packet is not skipped, and the valid packet's message is not
returned. -/
theorem C2_counterexample :
    read_message (strCps
        "Invalid-Header\r\nContent-Length: 12\r\n\r\nSome Message" ++
      strCps "Content-Length: 14\r\n\r\n\x7b\x22method\x22:\x22m\x22\x7d") =
      some (.error (.invalidData ("Malformed LSP header: " ++ quoteCh ++
        "Invalid-Header\r\n" ++ quoteCh))) :=
  read_message_of_err (by decide)

/-- Claim C2, amended: the only malformed packets `read_message` skips
are those that frame successfully but whose JSON-RPC parse yields a
structured failure (a JSON document without a `method` field); for such
a packet followed by a valid one, a single call returns exactly the
valid packet's message.  A framing-level malformation — such as a bad
header line — surfaces as the transport's `io::Error` and, like any
stream-ending or I/O error, makes `read_message` return that error
immediately.  A packet that frames and parses is returned at once with
the remainder of the stream untouched. -/
theorem C2_theorem :
    (∀ (s p1 s1 p2 s2 : List Nat) (f : Failure) (m : Message),
      read_lsp_packet s = .ok (p1, s1) →
      parse_message p1 = some (.error f) →
      read_lsp_packet s1 = .ok (p2, s2) →
      parse_message p2 = some (.ok m) →
      read_message s = some (.ok (m, s2)))
    ∧ (∀ (s : List Nat) (e : IoError),
      read_lsp_packet s = .error e →
      read_message s = some (.error e)) := by
  constructor
  · intro s p1 s1 p2 s2 f m h1 h2 h3 h4
    rw [read_message_of_failure h1 h2, read_message_of_ok h3 h4]
  · intro s e h
    exact read_message_of_err h

/-- Witness for C2: a framed `{}` packet (valid JSON, no `method`) is
skipped and the following notification packet is returned. -/
theorem C2_witness :
    read_message (strCps
        "Content-Length: 2\r\n\r\n\x7b\x7dContent-Length: 14\r\n\r\n\x7b\x22method\x22:\x22m\x22\x7d") =
      some (.ok (.notification ⟨strCps "m", .null⟩, [])) :=
  C2_theorem.1 _
    (strCps "\x7b\x7d")
    (strCps "Content-Length: 14\r\n\r\n\x7b\x22method\x22:\x22m\x22\x7d")
    (strCps "\x7b\x22method\x22:\x22m\x22\x7d") []
    ⟨Id.null, invalid_request⟩ (.notification ⟨strCps "m", .null⟩)
    (by decide) rfl (by decide) rfl

/-- Claim C3: on a packet that is not a syntactically valid JSON
document, `serde_json::from_str` fails and the source's `.unwrap()`
panics (modelled as `none`), instead of producing the structured
session-recoverable failure the claim describes. -/
theorem C3_theorem :
    json_from_str (strCps "not json") = none ∧
    parse_message (strCps "not json") = none :=
  ⟨rfl, rfl⟩

/-- Claim C4: for every header block made of well-formed lines — any
number, order and content of unrelated headers, keys matched
case-insensitively, the last `content-length` occurrence winning — a
blank CRLF line, and at least `N` following bytes whose first `N` form
valid UTF-8, `receive_packet` returns exactly those `N` bytes as text. -/
theorem C4_theorem (lines : List (List Nat)) (body rest text : List Nat)
    (N : Nat)
    (hgood : ∀ l ∈ lines, goodHeaderLine l = true)
    (hcl : lines.foldl updPS none = some N)
    (hlen : body.length = N)
    (htext : utf8Decode body = some text) :
    read_lsp_packet (lines.flatten ++ [0x0D, 0x0A] ++ body ++ rest) =
      .ok (text, rest) :=
  read_lsp_packet_wf lines body rest text N hgood hcl hlen htext

/-- Witness for C4: an unrelated header, a repeated content-length whose
last (mixed-case) occurrence wins, and trailing bytes left unread. -/
theorem C4_witness :
    read_lsp_packet (strCps
        "Content-Length: 5\r\nX-Extra: zz\r\ncOnTeNt-LeNgTh: 2\r\n\r\nokREST") =
      .ok (strCps "ok", strCps "REST") :=
  C4_theorem
    [strCps "Content-Length: 5\r\n", strCps "X-Extra: zz\r\n",
      strCps "cOnTeNt-LeNgTh: 2\r\n"]
    (strCps "ok") (strCps "REST") (strCps "ok") 2
    (by decide) (by decide) (by decide) (by decide)

/-- Claim C5, counterexample.  A header line whose bytes are not valid
UTF-8 (`[0xFF, 0x3A, 0x20, 0x61, 0x0D, 0x0A]`) fails with `InvalidData`
from inside `read_line`, although none of the claim's four enumerated
conditions holds at this input: the line does contain the `": "`
separator bytes, the block does contain a `content-length` header with a
numeric in-range value, and the announced body is valid UTF-8; the
failure is also not `UnexpectedEof`. -/
theorem C5_counterexample :
    read_lsp_packet ([0xFF, 0x3A, 0x20, 0x61, 0x0D, 0x0A] ++
        strCps "Content-Length: 1\r\n\r\nA") =
      .error (.invalidData "stream did not contain valid UTF-8") ∧
    (splitOnSep [0xFF, 0x3A, 0x20, 0x61, 0x0D, 0x0A]).isSome = true ∧
    lineCL (strCps "Content-Length: 1\r\n") = some 1 ∧
    utf8Decode (strCps "A") = some (strCps "A") ∧
    read_lsp_packet ([0xFF, 0x3A, 0x20, 0x61, 0x0D, 0x0A] ++
        strCps "Content-Length: 1\r\n\r\nA") ≠ .error .unexpectedEof :=
  ⟨by decide, by decide, by decide, by decide, by decide⟩

/-- Claim C5, amended: `receive_packet` fails with `InvalidData` when the
header block ends without a content-length header (message
`Content-Length header is missing`), when a non-blank header line lacks
the `": "` separator (message `Malformed LSP header: '<line>'`), when a
content-length value does not parse as a machine-size non-negative
integer, when a header line's bytes are not valid UTF-8, or when the
body bytes are not valid UTF-8; and it fails with `UnexpectedEof` when a
read returns zero bytes while more input was expected — an empty stream,
a header block never terminated by a blank line, or a body shorter than
the announced size. -/
theorem C5_theorem :
    (∀ (lines : List (List Nat)) (tail : List Nat),
      (∀ l ∈ lines, goodHeaderLine l = true) →
      lines.foldl updPS none = none →
      read_lsp_packet (lines.flatten ++ [0x0D, 0x0A] ++ tail) =
        .error (.invalidData "Content-Length header is missing"))
    ∧ (∀ (lines : List (List Nat)) (bad tail buf : List Nat) (msg : String),
      (∀ l ∈ lines, goodHeaderLine l = true) →
      lineShaped bad = true →
      utf8Decode bad = some buf →
      buf ≠ [0x0D, 0x0A] →
      parse_from_line buf = .error msg →
      read_lsp_packet (lines.flatten ++ bad ++ tail) =
        .error (.invalidData msg))
    ∧ (∀ (lines : List (List Nat)) (bad tail buf : List Nat)
        (header : LspHeader) (e : String),
      (∀ l ∈ lines, goodHeaderLine l = true) →
      lineShaped bad = true →
      utf8Decode bad = some buf →
      buf ≠ [0x0D, 0x0A] →
      parse_from_line buf = .ok header →
      toLowerCps header.key = contentLengthCps →
      parseUsize header.value = .error e →
      read_lsp_packet (lines.flatten ++ bad ++ tail) =
        .error (.invalidData
          ("Value of Content-Length header is invalid number: " ++ e)))
    ∧ (∀ (lines : List (List Nat)) (bad tail : List Nat),
      (∀ l ∈ lines, goodHeaderLine l = true) →
      lineShaped bad = true →
      utf8Decode bad = none →
      read_lsp_packet (lines.flatten ++ bad ++ tail) =
        .error (.invalidData "stream did not contain valid UTF-8"))
    ∧ (∀ lines : List (List Nat),
      (∀ l ∈ lines, goodHeaderLine l = true) →
      read_lsp_packet lines.flatten = .error .unexpectedEof)
    ∧ (∀ (lines : List (List Nat)) (body : List Nat) (N : Nat),
      (∀ l ∈ lines, goodHeaderLine l = true) →
      lines.foldl updPS none = some N →
      body.length < N →
      read_lsp_packet (lines.flatten ++ [0x0D, 0x0A] ++ body) =
        .error .unexpectedEof)
    ∧ (∀ (lines : List (List Nat)) (body rest : List Nat) (N : Nat),
      (∀ l ∈ lines, goodHeaderLine l = true) →
      lines.foldl updPS none = some N →
      body.length = N →
      utf8Decode body = none →
      read_lsp_packet (lines.flatten ++ [0x0D, 0x0A] ++ body ++ rest) =
        .error (.invalidData
          "Content of a packet is not a valid utf8: invalid utf-8")) :=
  ⟨read_lsp_packet_missing_cl, read_lsp_packet_malformed,
    read_lsp_packet_bad_value, read_lsp_packet_bad_utf8_line,
    read_lsp_packet_eof_in_headers, read_lsp_packet_short_body,
    read_lsp_packet_bad_body⟩

/-- Witness for C5: the repository's own missing-content-length test
input. -/
theorem C5_witness :
    read_lsp_packet (strCps "Content-Encoding: utf8\r\n\r\nSome Message") =
      .error (.invalidData "Content-Length header is missing") :=
  C5_theorem.1 [strCps "Content-Encoding: utf8\r\n"] (strCps "Some Message")
    (by decide) (by decide)

/-- Claim C6, counterexample.  The packet `{"id":[1],"method":"m"}`
parses to a JSON object with a textual `method` and well-shaped (absent)
`params`, and its `id` is present and non-null — yet `parse_message`
does not return a Request: the id deserialization's `unwrap` panics
(`none`). -/
theorem C6_counterexample :
    json_from_str (strCps "\x7b\x22id\x22:[1],\x22method\x22:\x22m\x22\x7d") =
      some (.obj [(idKey, .arr [.num 1]), (methodKey, .str (strCps "m"))]) ∧
    parse_message (strCps "\x7b\x22id\x22:[1],\x22method\x22:\x22m\x22\x7d") =
      none :=
  ⟨rfl, rfl⟩

/-- Claim C6, amended: for every packet parsing to a JSON object with a
textual `method`, well-shaped `params`, and an `id` that deserializes as
the Id union: if `id` is absent or null the result is a Notification
carrying the method and the normalized params exactly; otherwise it is a
Request carrying them exactly, with a response handle whose bound id is
the constant `123` (the parsed id is not stored). -/
theorem C6_theorem (packet : List Nat) (j : Json) (m : List Nat)
    (hj : json_from_str packet = some j)
    (hm : j.get methodKey = some (.str m))
    (hp : paramsShapeOk (j.get paramsKey) = true) :
    ((j.get idKey = none ∨ j.get idKey = some .null) →
      parse_message packet =
        some (.ok (.notification ⟨m, normParams (j.get paramsKey)⟩))) ∧
    (∀ (jid : Json) (i : Id), j.get idKey = some jid →
      idFromJson jid = some i → i ≠ .null →
      parse_message packet =
        some (.ok (.request ⟨m, normParams (j.get paramsKey), ⟨123⟩⟩))) := by
  constructor
  · intro hid
    rcases hid with hid | hid <;>
    · simp only [parse_message, hj, parse_message_v, hid, hm, idFromJson]
      cases hpp : j.get paramsKey with
      | none => simp [normParams]
      | some p =>
        cases p <;> simp_all [normParams, paramsShapeOk]
  · intro jid i hid hdec hne
    simp only [parse_message, hj, parse_message_v, hid, hdec, hm]
    have hreq : ∀ params : Json,
        (match i with
          | Id.null =>
            some (Except.ok (Message.notification ⟨m, params⟩))
          | _ => some (Except.ok (Message.request ⟨m, params, ⟨123⟩⟩)) :
          Option (Except Failure Message)) =
          some (Except.ok (Message.request ⟨m, params, ⟨123⟩⟩)) := by
      intro params
      cases i with
      | null => exact absurd rfl hne
      | num n => rfl
      | str s => rfl
    cases hpp : j.get paramsKey with
    | none => simp [normParams, hreq]
    | some p =>
      cases p <;> simp_all [normParams, paramsShapeOk, hreq]

/-- Witness for C6: `{"id":7,"method":"m"}` becomes a Request with the
method preserved, normalized absent params, and handle id `123`. -/
theorem C6_witness :
    parse_message (strCps "\x7b\x22id\x22:7,\x22method\x22:\x22m\x22\x7d") =
      some (.ok (.request ⟨strCps "m", .null, ⟨123⟩⟩)) :=
  (C6_theorem (strCps "\x7b\x22id\x22:7,\x22method\x22:\x22m\x22\x7d")
      (.obj [(idKey, .num 7), (methodKey, .str (strCps "m"))])
      (strCps "m") rfl rfl rfl).2
    (.num 7) (.num 7) rfl rfl (by decide)

/-- Claim C7: two documents identical in their `id` and `method` fields,
one with `params` absent and one with `params` explicitly `null`,
produce observably equal `parse_message` results (both normalize to the
no-params value); but a `params` of any other non-object, non-array
shape — here the bare number `5` — makes the source `panic!("test")`
(`none`) instead of producing the session-recoverable failure the claim
describes. -/
theorem C7_theorem :
    (∀ j j2 : Json,
      j.get idKey = j2.get idKey →
      j.get methodKey = j2.get methodKey →
      j.get paramsKey = none →
      j2.get paramsKey = some .null →
      parse_message_v j = parse_message_v j2)
    ∧ parse_message
        (strCps "\x7b\x22method\x22:\x22m\x22,\x22params\x22:5\x7d") =
      none := by
  constructor
  · intro j j2 hid hm hp hp2
    unfold parse_message_v
    rw [hp, hp2, ← hid, ← hm]
  · rfl

/-- Witness for C7: `{"method":"m"}` and `{"method":"m","params":null}`
yield equal results. -/
theorem C7_witness :
    parse_message_v (.obj [(methodKey, .str (strCps "m"))]) =
      parse_message_v (.obj [(methodKey, .str (strCps "m")),
        (paramsKey, .null)]) :=
  C7_theorem.1 _ _ rfl rfl rfl rfl

/-- Claim C8: a valid JSON document without a `method` field fails with
`invalid_request` carrying the recovered id — `null` when the field is
absent, the deserialized id when it deserializes; but on an `id` shape
that does not deserialize as the Id union (here `{"id":{}}`) the source
does not default to null: its `unwrap` panics (`none`). -/
theorem C8_theorem :
    (∀ (packet : List Nat) (j : Json),
      json_from_str packet = some j →
      j.get methodKey = none →
      (j.get idKey = none →
        parse_message packet =
          some (.error ⟨Id.null, invalid_request⟩)) ∧
      (∀ (jid : Json) (i : Id), j.get idKey = some jid →
        idFromJson jid = some i →
        parse_message packet = some (.error ⟨i, invalid_request⟩)))
    ∧ parse_message (strCps "\x7b\x22id\x22:\x7b\x7d\x7d") = none := by
  constructor
  · intro packet j hj hm
    constructor
    · intro hid
      simp only [parse_message, hj, parse_message_v, hid, hm]
    · intro jid i hid hdec
      simp only [parse_message, hj, parse_message_v, hid, hdec, hm]
  · rfl

/-- Witness for C8: `{"id":7}` fails with `invalid_request` carrying
`Id::Num 7`. -/
theorem C8_witness :
    parse_message (strCps "\x7b\x22id\x22:7\x7d") =
      some (.error ⟨Id.num 7, invalid_request⟩) :=
  (C8_theorem.1 (strCps "\x7b\x22id\x22:7\x7d") (.obj [(idKey, .num 7)])
      rfl rfl).2 (.num 7) (.num 7) rfl rfl

/-- Claim C10: a successful `receive_packet` consumes exactly the header
block plus the announced `N` body bytes: two back-to-back packets are
returned by two consecutive calls, the second packet's bytes (and any
trailing bytes) left intact by the first call. -/
theorem C10_theorem (lines1 lines2 : List (List Nat))
    (body1 body2 rest text1 text2 : List Nat) (N1 N2 : Nat)
    (hg1 : ∀ l ∈ lines1, goodHeaderLine l = true)
    (hc1 : lines1.foldl updPS none = some N1)
    (hl1 : body1.length = N1)
    (ht1 : utf8Decode body1 = some text1)
    (hg2 : ∀ l ∈ lines2, goodHeaderLine l = true)
    (hc2 : lines2.foldl updPS none = some N2)
    (hl2 : body2.length = N2)
    (ht2 : utf8Decode body2 = some text2) :
    read_lsp_packet (lines1.flatten ++ [0x0D, 0x0A] ++ body1 ++
        (lines2.flatten ++ [0x0D, 0x0A] ++ body2 ++ rest)) =
      .ok (text1, lines2.flatten ++ [0x0D, 0x0A] ++ body2 ++ rest) ∧
    read_lsp_packet (lines2.flatten ++ [0x0D, 0x0A] ++ body2 ++ rest) =
      .ok (text2, rest) :=
  ⟨read_lsp_packet_wf _ _ _ _ _ hg1 hc1 hl1 ht1,
   read_lsp_packet_wf _ _ _ _ _ hg2 hc2 hl2 ht2⟩

/-- Witness for C10: a `Content-Length: 0` packet yields the empty text
without touching the following packet, which the next call returns. -/
theorem C10_witness :
    read_lsp_packet
        (strCps "Content-Length: 0\r\n\r\nContent-Length: 2\r\n\r\nokTAIL") =
      .ok ([], strCps "Content-Length: 2\r\n\r\nokTAIL") ∧
    read_lsp_packet (strCps "Content-Length: 2\r\n\r\nokTAIL") =
      .ok (strCps "ok", strCps "TAIL") :=
  C10_theorem [strCps "Content-Length: 0\r\n"] [strCps "Content-Length: 2\r\n"]
    [] (strCps "ok") (strCps "TAIL") [] (strCps "ok") 0 2
    (by decide) (by decide) rfl rfl (by decide) (by decide) rfl rfl

end Rls

